import Mathlib

/-
Verification development for the cookbook repository: a shallow embedding of
the request-time session gate (middleware.ts), the session sync endpoint
(src/app/api/auth/set/route.ts) together with its profile upsert, and the
cookie write adapter used by server components (src/lib/supabaseServer.ts).
All definitions are translated from the TypeScript source.
-/

/-- A provider session. The gate only inspects presence or absence, so the
payload is just the subject identifier it carries. -/
structure Session where
  userId : String
deriving Repr, DecidableEq

/-- Outcome of the middleware: pass the response through, or redirect. -/
inductive GateOutcome where
  | next
  | redirect (location : String)
deriving Repr, DecidableEq

/-- The fixed public allow-list of middleware.ts (the publicRoutes array). -/
def publicRoutes : List String :=
  ["/login", "/signup", "/auth/welcome", "/reset-password", "/reset-password/confirm"]

/-- JavaScript String.prototype.startsWith: the first string begins with the
second, compared character by character. -/
def strStartsWith (s pre : String) : Bool :=
  pre.data.isPrefixOf s.data

/-- Mirrors publicRoutes.some(route => req.nextUrl.pathname.startsWith(route)). -/
def isPublicRoute (pathname : String) : Bool :=
  publicRoutes.any (fun route => strStartsWith pathname route)

/-- The access gate of middleware.ts. The session fetch result is passed in:
Except.error models supabase.auth.getSession throwing (there is no try/catch in
the middleware, so a throw propagates out of the function), Except.ok carries
the destructured data.session, which is null (none) when no user is signed in.
The body is the two redirect checks followed by the pass-through. -/
def middleware (sessionFetch : Except Unit (Option Session)) (pathname : String) :
    Except Unit GateOutcome :=
  match sessionFetch with
  | Except.error e => Except.error e
  | Except.ok session =>
    if !session.isSome && !isPublicRoute pathname then
      Except.ok (GateOutcome.redirect "/login")
    else if session.isSome && (pathname == "/login" || pathname == "/signup") then
      Except.ok (GateOutcome.redirect "/")
    else
      Except.ok GateOutcome.next

/-- A row of the local user table written by the profile upsert. The upsert
touches exactly these fields (id as key, email and username as data). -/
structure Profile where
  id : String
  email : String
  username : String
deriving Repr, DecidableEq

/-- Mirrors prisma.user.upsert({where: {id}, update: {email, username},
create: {id, email, username}}): update the row whose key matches, otherwise
insert a fresh row. -/
def upsertUser (db : List Profile) (i e u : String) : List Profile :=
  if db.any (fun p => p.id == i) then
    db.map (fun p => if p.id == i then { p with email := e, username := u } else p)
  else
    db ++ [{ id := i, email := e, username := u }]

/-- The provider user record as read by the route handlers: data.user.id,
data.user.email (possibly undefined) and data.user.user_metadata?.name
(possibly undefined). -/
structure AuthUser where
  id : String
  email : Option String
  metadataName : Option String
deriving Repr, DecidableEq

/-- JavaScript a || b on optional strings: undefined and the empty string are
falsy, any other string is kept. -/
def jsOr (a : Option String) (b : String) : String :=
  match a with
  | some s => if s == "" then b else s
  | none => b

/-- Mirrors email.split(@)[0]: the substring before the first at sign, the
whole string when there is none, empty on the empty string. -/
def localPart (e : String) : String :=
  String.mk (e.data.takeWhile (fun c => c != '@'))

/-- The username expression of the upsert in /api/auth/set and /auth/welcome:
user_metadata?.name || email?.split(@)[0] || user_ plus the first eight
characters of the subject identifier. -/
def computeUsername (u : AuthUser) : String :=
  jsOr u.metadataName (jsOr (u.email.map localPart) ("user_" ++ u.id.take 8))

/-- The request body of POST /api/auth/set after JSON parsing: each token is
absent (undefined) or a string. -/
structure TokenBody where
  access_token : Option String
  refresh_token : Option String
deriving Repr, DecidableEq

/-- The body used when parsing fails: req.json().catch(() => ({})) yields an
object with both fields undefined. -/
def emptyBody : TokenBody :=
  { access_token := none, refresh_token := none }

/-- JavaScript truthiness of an optional string: undefined and the empty
string are falsy. -/
def truthy (o : Option String) : Bool :=
  match o with
  | some s => s != ""
  | none => false

/-- Observable outcome of one invocation of POST /api/auth/set: the HTTP
status, whether the ok body was returned, the setSession calls made against
the provider (cookie writes happen only inside such a call), the upsert
inputs handed to the database client, the resulting table, and the console
error log lines. -/
structure SyncResult where
  status : Nat
  ok : Bool
  setSessionCalls : List (String × String)
  upserts : List Profile
  db : List Profile
  log : List String
deriving Repr, DecidableEq

/-- The POST handler of src/app/api/auth/set/route.ts. The JSON parse result,
the outcome of supabase.auth.setSession (an in-band error message, or
data.user which may be null), and whether the prisma upsert throws are passed
in as the behavior of the external collaborators; everything else follows the
source line by line: parse with catch, 400 when either token is falsy, 500 on
a setSession error, upsert under try/catch with the error swallowed, then the
ok response. -/
def postAuthSet (parsed : Except Unit TokenBody)
    (setSessionResult : Except String (Option AuthUser))
    (upsertFails : Bool) (db : List Profile) : SyncResult :=
  let body := match parsed with
    | Except.ok b => b
    | Except.error _ => emptyBody
  if !truthy body.access_token || !truthy body.refresh_token then
    { status := 400, ok := false, setSessionCalls := [], upserts := [], db := db, log := [] }
  else
    let tok := body.access_token.getD ""
    let rtok := body.refresh_token.getD ""
    match setSessionResult with
    | Except.error msg =>
      { status := 500, ok := false, setSessionCalls := [(tok, rtok)], upserts := [], db := db,
        log := ["[/api/auth/set] supabase.auth.setSession error: " ++ msg] }
    | Except.ok none =>
      { status := 200, ok := true, setSessionCalls := [(tok, rtok)], upserts := [], db := db,
        log := [] }
    | Except.ok (some u) =>
      let row : Profile :=
        { id := u.id, email := u.email.getD "", username := computeUsername u }
      if upsertFails then
        { status := 200, ok := true, setSessionCalls := [(tok, rtok)], upserts := [row],
          db := db, log := ["[/api/auth/set] prisma upsert error"] }
      else
        { status := 200, ok := true, setSessionCalls := [(tok, rtok)], upserts := [row],
          db := upsertUser db u.id (u.email.getD "") (computeUsername u),
          log := ["[/api/auth/set] User synced to database: " ++ u.id] }

/-- One cookie of the request-scoped cookie jar. -/
structure CookieEntry where
  name : String
  value : String
deriving Repr, DecidableEq

/-- One cookieStore.set call: overwrite the cookie of that name or append. -/
def cookieSet (store : List CookieEntry) (c : CookieEntry) : List CookieEntry :=
  (store.filter (fun d => d.name != c.name)) ++ [c]

/-- The forEach loop inside the try of setAll in supabaseServer.ts: each
cookieStore.set call throws when the execution context forbids mutating
outgoing headers (canWrite false), and the first throw aborts the loop. -/
def setAllAttempt (canWrite : Bool) (store : List CookieEntry)
    (entries : List CookieEntry) : Except Unit (List CookieEntry) :=
  entries.foldlM
    (fun s c => if canWrite then Except.ok (cookieSet s c) else Except.error ()) store

/-- The setAll callback of createSupabaseServerClient in supabaseServer.ts:
the loop is wrapped in try/catch and the catch block is empty, so the caller
never sees an exception and nothing is logged. The pair returned is the
resulting cookie jar (never an error) and the log lines emitted. -/
def writeAll (canWrite : Bool) (store : List CookieEntry) (entries : List CookieEntry) :
    Except Unit (List CookieEntry) × List String :=
  match setAllAttempt canWrite store entries with
  | Except.ok s => (Except.ok s, [])
  | Except.error _ => (Except.ok store, [])

/-- C1 counterexample: when the session fetch throws, the middleware does not
redirect the non-public path /recipes to /login; the exception propagates out
of the gate instead. -/
theorem C1_counterexample :
    middleware (Except.error ()) "/recipes" = Except.error () ∧
    middleware (Except.error ()) "/recipes" ≠ Except.ok (GateOutcome.redirect "/login") :=
  ⟨rfl, fun h => Except.noConfusion h⟩

/-- C1 amended: a thrown session fetch propagates out of the gate as an error,
so it never results in an allow (fail closed), but it is not a redirect to
/login; a fetch that reports failure in-band by yielding no session is treated
as session absent, so a non-public path is redirected to /login. -/
theorem C1_throw_fails_closed (p : String) (h : isPublicRoute p = false) :
    middleware (Except.error ()) p = Except.error () ∧
    middleware (Except.error ()) p ≠ Except.ok GateOutcome.next ∧
    middleware (Except.ok none) p = Except.ok (GateOutcome.redirect "/login") := by
  refine ⟨rfl, fun hc => Except.noConfusion hc, ?_⟩
  simp [middleware, h]

/-- C1 witness: the amended statement at the concrete path /recipes. -/
theorem C1_witness :
    isPublicRoute "/recipes" = false ∧
    middleware (Except.ok none) "/recipes" = Except.ok (GateOutcome.redirect "/login") :=
  ⟨rfl, (C1_throw_fails_closed "/recipes" rfl).2.2⟩

/-- C2 counterexample: the auth API path /api/auth/set is not in the public
allow-list, so with no session the gate redirects it to /login instead of
letting it through. -/
theorem C2_counterexample :
    middleware (Except.ok none) "/api/auth/set" = Except.ok (GateOutcome.redirect "/login") :=
  rfl

/-- C2 amended: the auth callback /auth/welcome prefix-matches the public
allow-list and is always allowed regardless of session state, but the auth API
paths /api/auth/set and /api/auth/signout are not excluded from the gate: they
are allowed when a session is present and redirected to /login when absent. -/
theorem C2_callback_vs_api (s : Option Session) (sess : Session) :
    middleware (Except.ok s) "/auth/welcome" = Except.ok GateOutcome.next ∧
    middleware (Except.ok (some sess)) "/api/auth/set" = Except.ok GateOutcome.next ∧
    middleware (Except.ok (some sess)) "/api/auth/signout" = Except.ok GateOutcome.next ∧
    middleware (Except.ok none) "/api/auth/set" = Except.ok (GateOutcome.redirect "/login") ∧
    middleware (Except.ok none) "/api/auth/signout" = Except.ok (GateOutcome.redirect "/login") := by
  cases s <;> exact ⟨rfl, rfl, rfl, rfl, rfl⟩

/-- C3: with no valid session, a request whose path does not prefix-match any
entry of the public allow-list is redirected to /login. -/
theorem C3_no_session_redirects_login (p : String) (h : isPublicRoute p = false) :
    middleware (Except.ok none) p = Except.ok (GateOutcome.redirect "/login") := by
  simp [middleware, h]

/-- C3 witness: the concrete non-public path /explore. -/
theorem C3_witness :
    isPublicRoute "/explore" = false ∧
    middleware (Except.ok none) "/explore" = Except.ok (GateOutcome.redirect "/login") :=
  ⟨rfl, C3_no_session_redirects_login "/explore" rfl⟩

/-- C4: with a valid session, a request to /login or /signup is redirected to
the home page. -/
theorem C4_session_redirects_home (s : Session) (p : String)
    (h : p = "/login" ∨ p = "/signup") :
    middleware (Except.ok (some s)) p = Except.ok (GateOutcome.redirect "/") := by
  rcases h with h | h <;> subst h <;> rfl

/-- C4 witness: a concrete session on the /login path. -/
theorem C4_witness :
    middleware (Except.ok (some { userId := "u1" })) "/login" =
      Except.ok (GateOutcome.redirect "/") :=
  C4_session_redirects_home { userId := "u1" } "/login" (Or.inl rfl)

/-- C5: when either token of the request body is missing or empty, the session
sync endpoint returns 400 with no setSession call against the provider (hence
no cookie write), no upsert, and an unchanged table. -/
theorem C5_missing_tokens_400 (b : TokenBody)
    (ssr : Except String (Option AuthUser)) (uf : Bool) (db : List Profile)
    (h : truthy b.access_token = false ∨ truthy b.refresh_token = false) :
    postAuthSet (Except.ok b) ssr uf db =
      { status := 400, ok := false, setSessionCalls := [], upserts := [], db := db,
        log := [] } := by
  rcases h with h | h <;> simp [postAuthSet, h]

/-- C5 witness: the spec example body with an empty access token and refresh
token r returns 400 and performs no upsert. -/
theorem C5_witness :
    truthy (some "") = false ∧
    postAuthSet (Except.ok { access_token := some "", refresh_token := some "r" })
        (Except.ok none) false [] =
      { status := 400, ok := false, setSessionCalls := [], upserts := [], db := [],
        log := [] } :=
  ⟨rfl, C5_missing_tokens_400 _ _ _ _ (Or.inl rfl)⟩

/-- C6: the username written by the upsert of the session sync endpoint is
computeUsername, which is the provided metadata name when non-empty, else the
local-part of the email when the email is present with a non-empty local-part,
else the fallback built from the subject identifier; on subject id u1 with
email a@b.com and no username it is a. -/
theorem C6_username_rule (u : AuthUser) (a r : String) (db : List Profile)
    (uf : Bool) (ha : a ≠ "") (hr : r ≠ "") :
    ((postAuthSet (Except.ok { access_token := some a, refresh_token := some r })
        (Except.ok (some u)) uf db).upserts =
      [{ id := u.id, email := u.email.getD "", username := computeUsername u }]) ∧
    (∀ s, u.metadataName = some s → s ≠ "" → computeUsername u = s) ∧
    ((u.metadataName = none ∨ u.metadataName = some "") →
      ∀ e, u.email = some e → localPart e ≠ "" → computeUsername u = localPart e) ∧
    ((u.metadataName = none ∨ u.metadataName = some "") → u.email = none →
      computeUsername u = "user_" ++ u.id.take 8) ∧
    computeUsername { id := "u1", email := some "a@b.com", metadataName := none } = "a" := by
  refine ⟨?_, ?_, ?_, ?_, rfl⟩
  · cases uf <;> simp [postAuthSet, truthy, ha, hr]
  · intro s hs hne
    simp [computeUsername, jsOr, hs, hne]
  · rintro (hm | hm) e he hle <;> simp [computeUsername, jsOr, hm, he, hle]
  · rintro (hm | hm) he <;> simp [computeUsername, jsOr, hm, he]

/-- C6 witness: the concrete instance of the username rule from the spec. -/
theorem C6_witness :
    computeUsername { id := "u1", email := some "a@b.com", metadataName := none } = "a" :=
  (C6_username_rule { id := "u1", email := some "a@b.com", metadataName := none }
    "t" "r" [] false (by decide) (by decide)).2.2.2.2

/-- C8: when both tokens are present, the provider adopts the session and
returns a user, and the prisma upsert then throws, the endpoint logs the
upsert error, leaves the table unchanged, and still returns the 200 ok
response for the session adoption. -/
theorem C8_upsert_failure_nonfatal (a r : String) (u : AuthUser) (db : List Profile)
    (ha : a ≠ "") (hr : r ≠ "") :
    postAuthSet (Except.ok { access_token := some a, refresh_token := some r })
        (Except.ok (some u)) true db =
      { status := 200, ok := true, setSessionCalls := [(a, r)],
        upserts := [{ id := u.id, email := u.email.getD "", username := computeUsername u }],
        db := db, log := ["[/api/auth/set] prisma upsert error"] } := by
  simp [postAuthSet, truthy, ha, hr]

/-- C8 witness: the failure-nonfatal statement at concrete tokens and user. -/
theorem C8_witness :
    postAuthSet (Except.ok { access_token := some "t", refresh_token := some "r" })
        (Except.ok (some { id := "u1", email := some "a@b.com", metadataName := none }))
        true [] =
      { status := 200, ok := true, setSessionCalls := [("t", "r")],
        upserts := [{ id := "u1", email := "a@b.com", username := "a" }],
        db := [], log := ["[/api/auth/set] prisma upsert error"] } :=
  C8_upsert_failure_nonfatal "t" "r" { id := "u1", email := some "a@b.com", metadataName := none }
    [] (by decide) (by decide)

/-- C10: a request body that is absent or not parseable as JSON is treated as
the empty body, so the endpoint returns the same 400 missing-tokens result
with no setSession call, no upsert and an unchanged table, and does not
throw. -/
theorem C10_unparseable_body_400 (ssr : Except String (Option AuthUser))
    (uf : Bool) (db : List Profile) :
    postAuthSet (Except.error ()) ssr uf db =
      { status := 400, ok := false, setSessionCalls := [], upserts := [], db := db,
        log := [] } :=
  rfl

/-- C7: on a table with at most one row for the given key, the upsert leaves
exactly one row with that key, and running it twice with the same id, email
and username gives the same table as running it once, with no error (the
model is total). -/
theorem C7_upsert_idempotent (db : List Profile) (i e u : String)
    (h : db.countP (fun p => p.id == i) ≤ 1) :
    (upsertUser db i e u).countP (fun p => p.id == i) = 1 ∧
    upsertUser (upsertUser db i e u) i e u = upsertUser db i e u := by
  by_cases hmem : db.any (fun p => p.id == i)
  · have hcount : (upsertUser db i e u).countP (fun p => p.id == i)
        = db.countP (fun p => p.id == i) := by
      simp only [upsertUser, if_pos hmem, List.countP_map]
      refine List.countP_congr (fun x _ => ?_)
      by_cases hx : x.id = i <;> simp [Function.comp, hx]
    have hpos : 0 < db.countP (fun p => p.id == i) := by
      rw [List.countP_pos_iff]
      rcases List.any_eq_true.mp hmem with ⟨x, hx, hpx⟩
      exact ⟨x, hx, hpx⟩
    have hany2 : (upsertUser db i e u).any (fun p => p.id == i) = true := by
      rw [List.any_eq_true]
      exact List.countP_pos_iff.mp (by rw [hcount]; exact hpos)
    refine ⟨by omega, ?_⟩
    simp only [upsertUser, if_pos hmem] at hany2 ⊢
    rw [if_pos hany2, List.map_map]
    refine List.map_congr_left (fun a _ => ?_)
    by_cases hpi : a.id = i <;> simp [Function.comp, hpi]
  · have hmem' : db.any (fun p => p.id == i) = false := by
      simpa using hmem
    have hall : ∀ p ∈ db, ¬ ((p.id == i) = true) := by
      intro p hp
      exact List.any_eq_false.mp hmem' p hp
    have hcount0 : db.countP (fun p => p.id == i) = 0 := List.countP_eq_zero.mpr hall
    have hany2 : (db ++ [({ id := i, email := e, username := u } : Profile)]).any
        (fun p => p.id == i) = true := by
      simp
    have hmapid : db.map
        (fun p => if p.id == i then ({ p with email := e, username := u } : Profile) else p)
        = db := by
      conv_rhs => rw [← List.map_id db]
      refine List.map_congr_left (fun a ha => ?_)
      have hne : ¬ (a.id = i) := by simpa using hall a ha
      simp [hne, id]
    constructor
    · simp only [upsertUser, if_neg hmem, List.countP_append, hcount0]
      simp
    · simp only [upsertUser, if_neg hmem]
      rw [if_pos hany2, List.map_append, hmapid]
      simp

/-- C7 witness: the upsert statement at a concrete empty table. -/
theorem C7_witness :
    List.countP (fun p => p.id == "u1") ([] : List Profile) ≤ 1 ∧
    (upsertUser [] "u1" "a@b.com" "a").countP (fun p => p.id == "u1") = 1 ∧
    upsertUser (upsertUser [] "u1" "a@b.com" "a") "u1" "a@b.com" "a"
      = upsertUser [] "u1" "a@b.com" "a" := by
  refine ⟨by simp, C7_upsert_idempotent [] "u1" "a@b.com" "a" (by simp)⟩

/-- C9 counterexample: in a context that forbids mutating outgoing headers,
the write attempt swallows the throw but emits no log line at all: the catch
block of setAll is empty, so no warning is logged, contrary to the claim. -/
theorem C9_counterexample :
    (writeAll false [] [{ name := "sb-token", value := "v" }]).1 = Except.ok [] ∧
    (writeAll false [] [{ name := "sb-token", value := "v" }]).2 = [] :=
  ⟨rfl, rfl⟩

/-- C9 amended: writeAll is no-op-safe: it never propagates an exception to
the caller, and in a context that forbids mutating outgoing headers it leaves
the cookie jar unchanged; but it fails silently without logging anything (the
catch block is empty, so no warning is emitted in any case). -/
theorem C9_writeAll_noop_safe (canWrite : Bool) (store entries : List CookieEntry) :
    (∃ s, (writeAll canWrite store entries).1 = Except.ok s) ∧
    writeAll false store entries = (Except.ok store, []) ∧
    (writeAll canWrite store entries).2 = [] := by
  refine ⟨?_, ?_, ?_⟩
  · unfold writeAll
    cases hres : setAllAttempt canWrite store entries with
    | ok s => exact ⟨s, by simp [hres]⟩
    | error e => exact ⟨store, by simp [hres]⟩
  · cases entries with
    | nil => rfl
    | cons c cs => rfl
  · unfold writeAll
    cases hres : setAllAttempt canWrite store entries <;> simp [hres]
